import Mathlib

set_option maxHeartbeats 1000000

/-! Shallow embedding of the download-orchestration logic of `src/app.py`
(YouTube Downloader).  Pure helpers mirror the Python source line by line;
the GUI worker thread (`App._download_thread`) is modelled as an explicit
event trace over an environment describing the behaviour of the external
collaborators (yt-dlp, ffprobe, ffmpeg, the filesystem), with user-initiated
cancellation injected at the code's cooperative yield points. -/

/-! ## String and filesystem helpers -/

/-- The percent sign scanned for by the progress regex. -/
def pctChar : Char := '%'

/-- The decimal dot of the progress regex. -/
def dotChar : Char := '.'

/-- The path separator replaced when deriving the output filename. -/
def slashChar : Char := '/'

/-- The replacement character used by `title.replace` in the source. -/
def underChar : Char := '_'

/-- ASCII single quote (code 39), stripped by the quick-download error
sanitizer `str(e)[:80].replace`. -/
def quoteChar : Char := Char.ofNat 39

/-- Helper for Python's `needle in hay`: does `needle` start `hay`? -/
def isPrefixOfB : List Char → List Char → Bool
  | [], _ => true
  | _ :: _, [] => false
  | a :: as, b :: bs => a == b && isPrefixOfB as bs

/-- Helper for Python's `needle in hay`: does `needle` occur contiguously? -/
def isInfixOfB (needle : List Char) : List Char → Bool
  | [] => isPrefixOfB needle []
  | b :: bs => isPrefixOfB needle (b :: bs) || isInfixOfB needle bs

/-- Python's substring test `needle in hay`. -/
def strContains (hay needle : String) : Bool :=
  isInfixOfB needle.toList hay.toList

/-- Does `needle` end `hay`? -/
def isSuffixOfB (needle l : List Char) : Bool :=
  isPrefixOfB needle.reverse l.reverse

/-- Python's `str.strip()`: drop whitespace from both ends. -/
def trimChars (cs : List Char) : List Char :=
  ((cs.dropWhile Char.isWhitespace).reverse.dropWhile Char.isWhitespace).reverse

/-- `str.strip()` on strings. -/
def strTrim (s : String) : String := String.mk (trimChars s.toList)

/-- Python's slice `s[:n]`. -/
def strTake (s : String) (n : Nat) : String := String.mk (s.toList.take n)

/-- Python's `str.lower()` (ASCII range, which covers the scanned tokens). -/
def lowerStr (s : String) : String := String.mk (s.toList.map Char.toLower)

/-- `os.path.join` for the shapes the app uses: a second component starting
with the separator is absolute and discards the first. -/
def pathJoin (a b : String) : String :=
  if isPrefixOfB [slashChar] b.toList then b
  else if a = "" then b
  else if isSuffixOfB [slashChar] a.toList then a ++ b
  else a ++ "/" ++ b

/-- Association-list lookup used by the filesystem model and `QUALITY_MAP`. -/
def lookupFS : List (String × String) → String → Option String
  | [], _ => none
  | (k, v) :: l, p => if k = p then some v else lookupFS l p

/-- Remove every binding of key `p`. -/
def eraseFS : List (String × String) → String → List (String × String)
  | [], _ => []
  | (k, v) :: l, p => if k = p then eraseFS l p else (k, v) :: eraseFS l p

/-- A flat filesystem: paths mapped to file contents. -/
structure FS where
  files : List (String × String)
  deriving DecidableEq

/-- Contents at path `p`, if a file exists there. -/
def FS.get (fs : FS) (p : String) : Option String := lookupFS fs.files p

/-- `os.path.exists`. -/
def FS.hasFile (fs : FS) (p : String) : Bool := (fs.get p).isSome

/-- Create or overwrite the file at `p`. -/
def FS.write (fs : FS) (p c : String) : FS := ⟨(p, c) :: eraseFS fs.files p⟩

/-- `os.remove`. -/
def FS.removeFile (fs : FS) (p : String) : FS := ⟨eraseFS fs.files p⟩

/-- `os.replace src dst`: atomically rename `src` over `dst`. -/
def FS.replacePath (fs : FS) (src dst : String) : FS :=
  match fs.get src with
  | some c => (fs.removeFile src).write dst c
  | none => fs

/-! ## The progress regex `(\d+\.?\d*)%` of `App._download_thread` -/

/-- Numeric value of a digit string. -/
def natOfDigits (ds : List Char) : Nat :=
  ds.foldl (fun n c => 10 * n + (c.toNat - 48)) 0

/-- One attempt of `re.search` for the pattern anchored at the head of `cs`:
one or more digits, an optional dot with further digits, then a percent
sign.  Returns the value of the captured group as an exact fraction
`(numerator, denominator)`: `"12.5"` gives `(125, 10)`. -/
def pctAt (cs : List Char) : Option (Nat × Nat) :=
  let d1 := cs.takeWhile Char.isDigit
  let r1 := cs.dropWhile Char.isDigit
  if d1 = [] then none
  else if r1.head? = some pctChar then some (natOfDigits d1, 1)
  else if r1.head? = some dotChar then
    let r2 := r1.tail
    let d2 := r2.takeWhile Char.isDigit
    let r3 := r2.dropWhile Char.isDigit
    if r3.head? = some pctChar then
      some (natOfDigits d1 * 10 ^ d2.length + natOfDigits d2, 10 ^ d2.length)
    else none
  else none

/-- `re.search`: leftmost position at which the pattern matches. -/
def findPct : List Char → Option (Nat × Nat)
  | [] => none
  | c :: cs =>
    match pctAt (c :: cs) with
    | some q => some q
    | none => findPct cs

/-! ## Data model -/

/-- The `subprocess.Popen` handle; `preexec_fn=os.setsid` makes the child the
leader of a fresh process group, so its group id equals its pid. -/
structure Proc where
  pid : Nat
  pgid : Nat
  running : Bool
  deriving DecidableEq

/-- The orchestration-relevant fields of the `App` object: the `_downloading`
and `_cancelled` flags, the `_dl_proc` handle, and the rendered status label,
progress bar and title label. -/
structure AppState where
  downloading : Bool := false
  cancelled : Bool := false
  dlProc : Option Proc := none
  status : String := "Ready"
  progress : ℚ := 0
  titleText : String := ""
  deriving DecidableEq

/-- The state right after `App.__init__` and `_build_ui`. -/
def initialState : AppState := {}

/-- Observable actions of a run: UI mutations marshalled via `self.after`,
process spawning/killing, and the external transcoder invocations. -/
inductive Event where
  | setStatus (s : String)
  | setProgress (q : ℚ)
  | setTitle (s : String)
  | spawn (cmd : List String)
  | killGroup (pgid : Nat)
  | probe (path : String)
  | reencode (path : String)
  deriving DecidableEq

/-- Is this event a process-group kill? -/
def isKillEv : Event → Bool
  | Event.killGroup _ => true
  | _ => false

/-- Whether a trace contains any process-group kill. -/
def hasKill (evs : List Event) : Bool := evs.any isKillEv

/-- The windows in which a user's cancel click can land.  The worker checks
`_cancelled` only at line 314 (after the metadata fetch) and line 357 (after
the process exits), so the flag is *observed* at most there:

* `duringFetch` — the click lands while `extract_info` blocks; `_dl_proc` is
  `None`, no kill is sent, and the worker stops at the line-314 check.
* `beforeSpawn` — the click lands after the line-314 check but before the
  `Popen` at line 338; `_dl_proc` is still `None`, so no kill is sent, and
  the loop body never checks the flag, so the spawn and the whole transfer
  still happen; the flag is only observed at line 357, after the transfer.
* `duringTransfer buffered` — the click lands while the subprocess runs: the
  process group is killed, but `buffered` output lines already in the pipe
  may still be read and processed after the cancel handler's UI events. -/
inductive CancelPoint where
  | duringFetch
  | beforeSpawn
  | duringTransfer (buffered : List String)
  deriving DecidableEq

/-- User-chosen job parameters read from the widgets at thread start. -/
structure JobInput where
  urlRaw : String
  quality : String
  audioOnly : Bool
  premiere : Bool
  outputDir : String
  deriving DecidableEq

/-- Behaviour of the external collaborators for one run: the metadata fetch
outcome, the subprocess stdout lines, its exit code, the filesystem as left
by the transfer, the ffprobe result, and the ffmpeg re-encode outcome.
`procTable` lists `(pid, pgid)` of the live processes, including any helper
children yt-dlp spawned inside the same group. -/
structure Env where
  infoResult : Except String (String × String)
  lines : List String
  returncode : Int
  fs : FS
  probeCodec : String
  ffmpegOk : Bool
  ffmpegWroteTemp : Bool
  ffmpegOutput : String
  ffmpegJunk : String
  pid : Nat
  procTable : List (Nat × Nat)

/-! ## Constants and pure functions from the source -/

/-- `FFMPEG_DIR` from the source. -/
def FFMPEG_DIR : String := "/opt/homebrew/bin"

/-- The yt-dlp binary path hardcoded in `_download_thread`. -/
def YTDLP_BIN : String := "/Library/Frameworks/Python.framework/Versions/3.14/bin/yt-dlp"

/-- `QUALITY_MAP` from the source. -/
def QUALITY_MAP : List (String × String) :=
  [("Best", "bestvideo+bestaudio/best"),
   ("4K", "bestvideo[height<=2160]+bestaudio/best[height<=2160]"),
   ("1440p", "bestvideo[height<=1440]+bestaudio/best[height<=1440]"),
   ("1080p", "bestvideo[height<=1080]+bestaudio/best[height<=1080]"),
   ("720p", "bestvideo[height<=720]+bestaudio/best[height<=720]"),
   ("480p", "bestvideo[height<=480]+bestaudio/best[height<=480]")]

/-- `QUALITY_MAP.get(quality, QUALITY_MAP["Best"])`. -/
def qualityFormat (quality : String) : String :=
  (lookupFS QUALITY_MAP quality).getD ("bestvideo+bestaudio/best")

/-- The format string chosen at lines 318-321 of the source: `bestaudio/best`
when audio-only, otherwise the `QUALITY_MAP` entry. -/
def formatSelector (audioOnly : Bool) (quality : String) : String :=
  if audioOnly then "bestaudio/best" else qualityFormat quality

/-- The audio-extraction flags appended when `audio_only` is set. -/
def audioFlags : List String := ["-x", "--audio-format", "mp3", "--audio-quality", "320K"]

/-- The yt-dlp command list built at lines 323-335. -/
def buildCmd (outputDir fmt : String) (audioOnly : Bool) (url : String) : List String :=
  [YTDLP_BIN, "-f", fmt,
   "-o", pathJoin outputDir ("%(title)s.%(ext)s"),
   "--newline", "--no-playlist", "--ffmpeg-location", FFMPEG_DIR]
  ++ (if !audioOnly then ["--merge-output-format", "mp4"] else [])
  ++ (if audioOnly then audioFlags else [])
  ++ [url]

/-- `title.replace` at line 368: every `/` becomes `_`. -/
def safeTitle (title : String) : String :=
  String.mk (title.toList.map (fun c => if c = slashChar then underChar else c))

/-- The only path at which the worker looks for the produced file,
`os.path.join(output_dir, safe_title + ".mp4")`. -/
def mp4PathFor (outputDir title : String) : String :=
  pathJoin outputDir (safeTitle title ++ ".mp4")

/-- `App._reencode_to_h264`: ffmpeg writes `<filepath>.tmp.mp4`; exit code 0
replaces the original via `os.replace`, otherwise the temp file is deleted if
present.  `ok` is the ffmpeg exit status, `wroteTemp`/`junk` say whether a
failed run left a temp file behind and with what content. -/
def reencodeToH264 (ok wroteTemp : Bool) (out junk : String) (fs : FS) (filepath : String) : FS :=
  let tmpPath := filepath ++ ".tmp.mp4"
  let fs1 :=
    if ok then fs.write tmpPath out
    else if wroteTemp then fs.write tmpPath junk
    else fs
  if ok then fs1.replacePath tmpPath filepath
  else if fs1.hasFile tmpPath then fs1.removeFile tmpPath
  else fs1

/-- The UI events produced for one stdout line by the loop at lines 343-353:
a progress event when the percentage regex matches the stripped line, then
either the truncated line as status (when it mentions `ETA` or a percent
sign), or the fixed Merging placeholder when a merge signal is seen. -/
def lineEvents (raw : String) : List Event :=
  (match findPct (strTrim raw).toList with
   | some (n, d) => [Event.setProgress (mkRat n (100 * d))]
   | none => []) ++
  (if strContains (strTrim raw) ("ETA") || strContains (strTrim raw) ("%") then
     [Event.setStatus (strTake (strTrim raw) 80)]
   else if strContains (strTrim raw) ("Merging")
        || strContains (lowerStr (strTrim raw)) ("merger") then
     [Event.setStatus ("Merging streams..."), Event.setProgress (mkRat 19 20)]
   else [])

/-- Concatenation of the per-line events over the whole stdout stream. -/
def concatMap (f : String → List Event) : List String → List Event
  | [] => []
  | l :: ls => f l ++ concatMap f ls

/-- `App._download_thread` lines 366-375: the Premiere re-encode step.  Runs
only when `not audio_only and premiere`; looks for the file at `mp4PathFor`;
probes its codec; re-encodes only when the codec is non-empty and differs
from h264.  Returns the emitted events and the resulting filesystem. -/
def premierePhase (env : Env) (inp : JobInput) (title : String) : List Event × FS :=
  if !inp.audioOnly && inp.premiere then
    if env.fs.hasFile (mp4PathFor inp.outputDir title) then
      if (env.probeCodec != "") && (env.probeCodec != "h264") then
        ([Event.probe (mp4PathFor inp.outputDir title),
          Event.setStatus ("Re-encoding to H.264 (was " ++ env.probeCodec ++ ")..."),
          Event.setProgress (mkRat 1 2),
          Event.reencode (mp4PathFor inp.outputDir title)],
         reencodeToH264 env.ffmpegOk env.ffmpegWroteTemp env.ffmpegOutput env.ffmpegJunk
           env.fs (mp4PathFor inp.outputDir title))
      else ([Event.probe (mp4PathFor inp.outputDir title)], env.fs)
    else ([], env.fs)
  else ([], env.fs)

/-! ## Submission, cancellation and the worker thread -/

/-- Result of the GUI Download action. -/
structure SubmitResult where
  st : AppState
  scheduled : Bool
  deriving DecidableEq

/-- `App._start_download` (lines 281-296): reject when the stripped URL is
empty or a download is already active, otherwise flip the flags, reset the
progress bar, show the FetchingInfo status and schedule the worker thread. -/
def startDownload (st : AppState) (urlRaw : String) : SubmitResult :=
  if strTrim urlRaw = "" then
    { st := { st with status := "Please enter a YouTube URL." }, scheduled := false }
  else if st.downloading then
    { st := st, scheduled := false }
  else
    { st := { st with downloading := true, cancelled := false, dlProc := none,
                      progress := 0, status := "Fetching video info...", titleText := "" },
      scheduled := true }

/-- The UI events of a successful `_start_download` call (lines 293-295). -/
def submitEvents : List Event :=
  [Event.setProgress 0, Event.setStatus ("Fetching video info..."), Event.setTitle ("")]

/-- The events emitted by `App._cancel_download`: a kill of the whole process
group when a live subprocess exists, then the Cancelled status and the
progress reset. -/
def cancelEvents (proc : Option Proc) : List Event :=
  (match proc with
   | some p => if p.running then [Event.killGroup p.pgid] else []
   | none => []) ++
  [Event.setStatus ("Cancelled."), Event.setProgress 0]

/-- The flag mutations of `App._cancel_download`. -/
def cancelFlags (st : AppState) : AppState :=
  { st with cancelled := true, downloading := false, dlProc := none,
            status := "Cancelled.", progress := 0 }

/-- `os.killpg` semantics: the pids signalled when group `g` is killed. -/
def killGroupTargets (procs : List (Nat × Nat)) (g : Nat) : List Nat :=
  (procs.filter (fun pr => pr.2 == g)).map (fun pr => pr.1)

/-- `MenuDelegate._quick_download` (lines 52-67): after the modal alert is
confirmed, a non-empty stripped URL starts `_do_download` on a fresh thread.
The function has no access to the App's `_downloading` flag: the scheduling
decision depends only on the dialog outcome and the entered text. -/
def quickSchedules (confirmed : Bool) (input : String) : Bool :=
  confirmed && (strTrim input != "")

/-- The quick path's error sanitizer `str(e)[:80].replace` (line 86): first
80 characters with single quotes removed. -/
def quickErrorText (e : String) : String :=
  String.mk ((e.toList.take 80).filter (fun c => c != quoteChar))

/-- Notification texts shown by `MenuDelegate._do_download`: the start
notification, then the title on success or the sanitized error on failure. -/
def quickNotifications (res : Except String String) : List String :=
  "Starting download..." ::
    (match res with
     | Except.ok title => [title]
     | Except.error e => [quickErrorText e])

/-- `App._download_thread` (lines 298-388) as an event trace.  `cancelAt`
says in which window (if any) the user's cancel click lands; `none` means no
cancellation.  `env.lines` are the stdout lines processed before the click
(all of them when no click lands mid-transfer).  A click with no live
subprocess runs `_cancel_download` with `_dl_proc = None` (flag only, no
kill); a click mid-transfer kills the live process group, after which the
`buffered` lines still in the pipe are read and processed.  A click in the
`beforeSpawn` window is never seen by the loop: the spawn and the whole
transfer still happen and the flag is only honoured at the line-357 check,
after the transfer.  The returned filesystem is the one left by the run. -/
def downloadThread (env : Env) (inp : JobInput) (url : String)
    (cancelAt : Option CancelPoint) : List Event × FS :=
  match env.infoResult with
  | Except.error e =>
    -- `extract_info` raised; `except` shows the raw text unless cancelled.
    match cancelAt with
    | some CancelPoint.duringFetch => (cancelEvents none, env.fs)
    | some _ =>
      -- the worker died before any process was spawned; the cancel click
      -- finds `_dl_proc = None`
      ([Event.setStatus ("Error: " ++ e), Event.setProgress 0] ++ cancelEvents none, env.fs)
    | none =>
      ([Event.setStatus ("Error: " ++ e), Event.setProgress 0], env.fs)
  | Except.ok (title, dur) =>
    match cancelAt with
    | some CancelPoint.duringFetch =>
      -- cancel clicked while `extract_info` blocked: no process yet; the
      -- worker still posts the title, then stops at the line-314 check
      (cancelEvents none ++ [Event.setTitle (title ++ "  (" ++ dur ++ ")")], env.fs)
    | some CancelPoint.beforeSpawn =>
      -- cancel clicked after the line-314 check and before the Popen: the
      -- handler sets the flag and resets the UI, but sends no kill, and the
      -- worker — whose loop never checks the flag — spawns and transfers in
      -- full, overwriting the Cancelled status with the loop's own events,
      -- and first honours the flag at the line-357 check
      ([Event.setTitle (title ++ "  (" ++ dur ++ ")")] ++ cancelEvents none
        ++ [Event.setStatus ("Downloading..."),
            Event.spawn (buildCmd inp.outputDir
              (formatSelector inp.audioOnly inp.quality) inp.audioOnly url)]
        ++ concatMap lineEvents env.lines, env.fs)
    | some (CancelPoint.duringTransfer buffered) =>
      -- killpg on the live group; lines still buffered in the pipe are
      -- processed after the handler's events, then the stream ends and the
      -- worker stops at the line-357 check
      ([Event.setTitle (title ++ "  (" ++ dur ++ ")"),
        Event.setStatus ("Downloading..."),
        Event.spawn (buildCmd inp.outputDir
          (formatSelector inp.audioOnly inp.quality) inp.audioOnly url)]
        ++ concatMap lineEvents env.lines
        ++ cancelEvents (some ⟨env.pid, env.pid, true⟩)
        ++ concatMap lineEvents buffered, env.fs)
    | none =>
      let pre := [Event.setTitle (title ++ "  (" ++ dur ++ ")"),
                  Event.setStatus ("Downloading..."),
                  Event.spawn (buildCmd inp.outputDir
                    (formatSelector inp.audioOnly inp.quality) inp.audioOnly url)]
      let loopEvs := concatMap lineEvents env.lines
      if env.returncode ≠ 0 then
        (pre ++ loopEvs ++ [Event.setStatus ("Download failed."), Event.setProgress 0], env.fs)
      else
        (pre ++ loopEvs ++ (premierePhase env inp title).1 ++
          [Event.setProgress 1, Event.setStatus ("Done! Saved to " ++ inp.outputDir)],
         (premierePhase env inp title).2)

/-- Replay a UI event onto the rendered state. -/
def applyEvent (st : AppState) : Event → AppState
  | Event.setStatus s => { st with status := s }
  | Event.setProgress q => { st with progress := q }
  | Event.setTitle s => { st with titleText := s }
  | _ => st

/-- Replay a trace of events. -/
def applyEvents (st : AppState) (evs : List Event) : AppState :=
  evs.foldl applyEvent st

/-- The `finally` block (lines 383-388): flags cleared, process handle
dropped, buttons restored. -/
def finallyUpd (st : AppState) : AppState :=
  { st with downloading := false, cancelled := false, dlProc := none }

/-- One full run: submission plus worker. -/
structure RunOutcome where
  final : AppState
  trace : List Event
  fs : FS

/-- Submit via the GUI button and, when accepted, run the worker. -/
def runFromSubmit (env : Env) (inp : JobInput) (st : AppState)
    (cancelAt : Option CancelPoint) : RunOutcome :=
  let sub := startDownload st inp.urlRaw
  if sub.scheduled then
    { final := finallyUpd (applyEvents sub.st
        (downloadThread env inp (strTrim inp.urlRaw) cancelAt).1),
      trace := submitEvents ++ (downloadThread env inp (strTrim inp.urlRaw) cancelAt).1,
      fs := (downloadThread env inp (strTrim inp.urlRaw) cancelAt).2 }
  else
    { final := sub.st, trace := [], fs := env.fs }

/-- The progress values of a trace, in order. -/
def progressEvents : List Event → List ℚ
  | [] => []
  | Event.setProgress q :: evs => q :: progressEvents evs
  | _ :: evs => progressEvents evs

/-- Boolean check that a list of rationals never decreases. -/
def nondecreasing : List ℚ → Bool
  | [] => true
  | [_] => true
  | a :: b :: rest => decide (a ≤ b) && nondecreasing (b :: rest)

/-- The title recorded by the metadata fetch ("Unknown" plays no role in the
claims; an errored fetch never reaches the code that uses the title). -/
def titleOf (env : Env) : String :=
  match env.infoResult with
  | Except.ok (t, _) => t
  | Except.error _ => ""

/-! ## Concrete states and environments used in counterexamples and
witnesses -/

/-- An app state with an active download. -/
def stActive : AppState := { downloading := true }

/-- A video job with the Premiere toggle on. -/
def inpVid : JobInput :=
  { urlRaw := "u", quality := "Best", audioOnly := false, premiere := true, outputDir := "/d" }

/-- A plain video job, Premiere off. -/
def inpPlain : JobInput :=
  { urlRaw := "u", quality := "1080p", audioOnly := false, premiere := false,
    outputDir := "/out" }

/-- An audio-only job. -/
def inpAudio : JobInput :=
  { urlRaw := "u", quality := "Best", audioOnly := true, premiere := false, outputDir := "/d" }

/-- A run whose backend reports 50%, then 30%, then the merge signal, and
whose produced file probes as hevc: progress goes 0.5, 0.3, 0.95, then 0.5
again at the re-encode. -/
def envC3 : Env :=
  { infoResult := Except.ok ("T", "1:00"),
    lines := ["50% ETA", "30% ETA", "Merging"],
    returncode := 0, fs := ⟨[("/d/T.mp4", "v")]⟩, probeCodec := "hevc",
    ffmpegOk := true, ffmpegWroteTemp := false, ffmpegOutput := "h", ffmpegJunk := "j",
    pid := 7, procTable := [(7, 7), (8, 7)] }

/-- A run with monotone backend percentages and no re-encode. -/
def envMono : Env :=
  { infoResult := Except.ok ("Clip", "0:10"),
    lines := ["10% ETA", "50% ETA"],
    returncode := 0, fs := ⟨[]⟩, probeCodec := "", ffmpegOk := true,
    ffmpegWroteTemp := false, ffmpegOutput := "h", ffmpegJunk := "j",
    pid := 3, procTable := [(3, 3)] }

/-- A 100-character backend error message. -/
def longMsg : String := String.mk (List.replicate 100 'a')

/-- A run whose metadata fetch raises with `longMsg`. -/
def envErr : Env :=
  { infoResult := Except.error longMsg, lines := [], returncode := 1, fs := ⟨[]⟩,
    probeCodec := "", ffmpegOk := false, ffmpegWroteTemp := false,
    ffmpegOutput := "", ffmpegJunk := "", pid := 1, procTable := [] }

/-- Like `envC3` but the produced file already probes as h264. -/
def envH264 : Env := { envC3 with probeCodec := "h264" }

/-- Like `envC3` but no file exists at the expected output path. -/
def envNoFile : Env := { envC3 with fs := ⟨[]⟩ }

/-! ## Helper lemmas -/

theorem strLen_mk (l : List Char) : (String.mk l).length = l.length := rfl

theorem strLen_append (a b : String) : (a ++ b).length = a.length + b.length := by
  cases a with
  | mk la =>
    cases b with
    | mk lb => exact List.length_append la lb

/-- The transcode staging path is never the final path itself. -/
theorem tmpPath_ne (fp : String) : fp ++ ".tmp.mp4" ≠ fp := by
  intro h
  have hl := congrArg String.length h
  rw [strLen_append] at hl
  rw [show (".tmp.mp4" : String).length = 8 from rfl] at hl
  omega

theorem lookupFS_erase_self (p : String) :
    ∀ l : List (String × String), lookupFS (eraseFS l p) p = none := by
  intro l
  induction l with
  | nil => rfl
  | cons kv tl ih =>
    obtain ⟨k, v⟩ := kv
    by_cases hk : k = p
    · simp [eraseFS, hk, ih]
    · simp [eraseFS, lookupFS, hk, ih]

theorem lookupFS_erase_ne (p q : String) (h : q ≠ p) :
    ∀ l : List (String × String), lookupFS (eraseFS l p) q = lookupFS l q := by
  intro l
  induction l with
  | nil => rfl
  | cons kv tl ih =>
    obtain ⟨k, v⟩ := kv
    by_cases hk : k = p
    · subst hk
      simp [eraseFS, lookupFS, Ne.symm h, ih]
    · simp [eraseFS, lookupFS, hk, ih]

theorem FS.get_write_self (fs : FS) (p c : String) : (fs.write p c).get p = some c := by
  simp [FS.get, FS.write, lookupFS]

theorem FS.get_write_ne (fs : FS) (p c q : String) (h : q ≠ p) :
    (fs.write p c).get q = fs.get q := by
  simp [FS.get, FS.write, lookupFS, Ne.symm h, lookupFS_erase_ne p q h]

theorem FS.get_removeFile_self (fs : FS) (p : String) : (fs.removeFile p).get p = none := by
  simp [FS.get, FS.removeFile, lookupFS_erase_self]

theorem FS.get_removeFile_ne (fs : FS) (p q : String) (h : q ≠ p) :
    (fs.removeFile p).get q = fs.get q := by
  simp [FS.get, FS.removeFile, lookupFS_erase_ne p q h]

theorem singleton_isInfixOfB (c : Char) :
    ∀ l : List Char, isInfixOfB [c] l = true ↔ c ∈ l := by
  intro l
  induction l with
  | nil => simp [isInfixOfB, isPrefixOfB]
  | cons b bs ih => simp [isInfixOfB, isPrefixOfB, ih, List.mem_cons]

theorem mem_of_mem_dropWhileCh {a : Char} {p : Char → Bool} :
    ∀ {l : List Char}, a ∈ l.dropWhile p → a ∈ l := by
  intro l
  induction l with
  | nil => simp [List.dropWhile]
  | cons b bs ih =>
    intro h
    by_cases hb : p b
    · simp [List.dropWhile, hb] at h
      exact List.mem_cons_of_mem b (ih h)
    · simpa [List.dropWhile, hb] using h

theorem head_pct_mem {l : List Char} (h : l.head? = some pctChar) : pctChar ∈ l := by
  cases l with
  | nil => simp at h
  | cons x xs =>
    simp at h
    simp [h]

theorem pctAt_pctChar {cs : List Char} {v : Nat × Nat} (h : pctAt cs = some v) :
    pctChar ∈ cs := by
  by_cases h1 : cs.takeWhile Char.isDigit = []
  · simp [pctAt, h1] at h
  · by_cases h2 : (cs.dropWhile Char.isDigit).head? = some pctChar
    · exact mem_of_mem_dropWhileCh (head_pct_mem h2)
    · by_cases h3 : (cs.dropWhile Char.isDigit).head? = some dotChar
      · by_cases h4 :
            (((cs.dropWhile Char.isDigit).tail).dropWhile Char.isDigit).head? = some pctChar
        · have hm2 : pctChar ∈ (cs.dropWhile Char.isDigit).tail :=
            mem_of_mem_dropWhileCh (head_pct_mem h4)
          have hm1 : pctChar ∈ cs.dropWhile Char.isDigit := by
            cases hr : cs.dropWhile Char.isDigit with
            | nil => rw [hr] at hm2; simp at hm2
            | cons x xs => rw [hr] at hm2; exact List.mem_cons_of_mem x hm2
          exact mem_of_mem_dropWhileCh hm1
        · simp [pctAt, h1, h2, h3, h4, show dotChar ≠ pctChar from by decide] at h
      · simp [pctAt, h1, h2, h3] at h

theorem findPct_eq_none : ∀ {cs : List Char}, pctChar ∉ cs → findPct cs = none := by
  intro cs
  induction cs with
  | nil => intro _; rfl
  | cons c tl ih =>
    intro h
    cases hp : pctAt (c :: tl) with
    | some v => exact absurd (pctAt_pctChar hp) h
    | none =>
      have : pctChar ∉ tl := fun hm => h (List.mem_cons_of_mem c hm)
      simp [findPct, hp, ih this]

theorem mkRat_nat_nonneg (n d : Nat) : 0 ≤ mkRat (n : Int) d := by
  rw [Rat.mkRat_eq_div]
  apply div_nonneg
  · exact_mod_cast Int.natCast_nonneg n
  · exact_mod_cast Nat.zero_le d

theorem progressEvents_append (xs ys : List Event) :
    progressEvents (xs ++ ys) = progressEvents xs ++ progressEvents ys := by
  induction xs with
  | nil => rfl
  | cons e tl ih => cases e <;> simp [progressEvents, ih]

theorem mem_concatMap {e : Event} {f : String → List Event} :
    ∀ {ls : List String}, e ∈ concatMap f ls → ∃ l ∈ ls, e ∈ f l := by
  intro ls
  induction ls with
  | nil => simp [concatMap]
  | cons l tl ih =>
    intro h
    rcases List.mem_append.mp h with h1 | h2
    · exact ⟨l, List.mem_cons_self l tl, h1⟩
    · obtain ⟨l', hl', he⟩ := ih h2
      exact ⟨l', List.mem_cons_of_mem l hl', he⟩

theorem lineEvents_shape {raw : String} {e : Event} (h : e ∈ lineEvents raw) :
    (∃ q, e = Event.setProgress q) ∨ ∃ s, e = Event.setStatus s := by
  unfold lineEvents at h
  rcases List.mem_append.mp h with h1 | h2
  · cases hf : findPct (strTrim raw).toList with
    | none => rw [hf] at h1; simp at h1
    | some v =>
      rw [hf] at h1
      obtain ⟨n, d⟩ := v
      simp at h1
      exact Or.inl ⟨_, h1⟩
  · split at h2
    · simp at h2
      exact Or.inr ⟨_, h2⟩
    · split at h2
      · rcases List.mem_cons.mp h2 with h3 | h3
        · exact Or.inr ⟨_, h3⟩
        · simp at h3
          exact Or.inl ⟨_, h3⟩
      · simp at h2

theorem lineEvents_progress_nonneg {raw : String} {q : ℚ}
    (h : q ∈ progressEvents (lineEvents raw)) : 0 ≤ q := by
  unfold lineEvents at h
  rw [progressEvents_append] at h
  rcases List.mem_append.mp h with h1 | h2
  · cases hf : findPct (strTrim raw).toList with
    | none => rw [hf] at h1; simp [progressEvents] at h1
    | some v =>
      rw [hf] at h1
      obtain ⟨n, d⟩ := v
      simp [progressEvents] at h1
      rw [h1]
      exact mkRat_nat_nonneg n (100 * d)
  · split at h2
    · simp [progressEvents] at h2
    · split at h2
      · simp [progressEvents] at h2
        rw [h2]
        exact mkRat_nat_nonneg 19 20
      · simp [progressEvents] at h2

theorem concatMap_progress_nonneg {ls : List String} {q : ℚ}
    (h : q ∈ progressEvents (concatMap lineEvents ls)) : 0 ≤ q := by
  induction ls with
  | nil => simp [concatMap, progressEvents] at h
  | cons l tl ih =>
    rw [concatMap, progressEvents_append] at h
    rcases List.mem_append.mp h with h1 | h2
    · exact lineEvents_progress_nonneg h1
    · exact ih h2

theorem nondecr_cons (a : ℚ) (l : List ℚ) (h : nondecreasing l = true)
    (ha : ∀ q ∈ l, a ≤ q) : nondecreasing (a :: l) = true := by
  cases l with
  | nil => rfl
  | cons b bs =>
    simp only [nondecreasing, Bool.and_eq_true, decide_eq_true_eq]
    exact ⟨ha b (List.mem_cons_self b bs), h⟩

theorem nondecr_append_last (b : ℚ) :
    ∀ l : List ℚ, nondecreasing l = true → (∀ q ∈ l, q ≤ b) →
      nondecreasing (l ++ [b]) = true := by
  intro l
  induction l with
  | nil => intro _ _; rfl
  | cons a tl ih =>
    intro h hb
    cases tl with
    | nil =>
      have hab : a ≤ b := hb a (List.mem_cons_self a [])
      simp [nondecreasing, hab]
    | cons c tl2 =>
      simp only [nondecreasing, Bool.and_eq_true, decide_eq_true_eq] at h
      have hstep := ih h.2 (fun q hq => hb q (List.mem_cons_of_mem a hq))
      simp only [List.cons_append, nondecreasing, Bool.and_eq_true, decide_eq_true_eq]
      constructor
      · exact h.1
      · simpa using hstep

theorem applyEvents_append (st : AppState) (xs ys : List Event) :
    applyEvents st (xs ++ ys) = applyEvents (applyEvents st xs) ys := by
  simp [applyEvents, List.foldl_append]

theorem applyEvents_tail_status_progress (st : AppState) (xs : List Event)
    (s : String) (q : ℚ) :
    (applyEvents st (xs ++ [Event.setStatus s, Event.setProgress q])).status = s
  ∧ (applyEvents st (xs ++ [Event.setStatus s, Event.setProgress q])).progress = q := by
  rw [applyEvents_append]
  exact ⟨rfl, rfl⟩

theorem applyEvents_tail_progress_status (st : AppState) (xs : List Event)
    (q : ℚ) (s : String) :
    (applyEvents st (xs ++ [Event.setProgress q, Event.setStatus s])).status = s
  ∧ (applyEvents st (xs ++ [Event.setProgress q, Event.setStatus s])).progress = q := by
  rw [applyEvents_append]
  exact ⟨rfl, rfl⟩

theorem lineEvents_no_probe {raw : String} {p : String} :
    Event.probe p ∉ lineEvents raw := by
  intro h
  rcases lineEvents_shape h with ⟨q, hq⟩ | ⟨s, hs⟩
  · simp at hq
  · simp at hs

theorem lineEvents_no_reencode {raw : String} {p : String} :
    Event.reencode p ∉ lineEvents raw := by
  intro h
  rcases lineEvents_shape h with ⟨q, hq⟩ | ⟨s, hs⟩
  · simp at hq
  · simp at hs

theorem concatMap_no_probe {ls : List String} {p : String} :
    Event.probe p ∉ concatMap lineEvents ls := by
  intro h
  obtain ⟨l, _, he⟩ := mem_concatMap h
  exact lineEvents_no_probe he

theorem concatMap_no_reencode {ls : List String} {p : String} :
    Event.reencode p ∉ concatMap lineEvents ls := by
  intro h
  obtain ⟨l, _, he⟩ := mem_concatMap h
  exact lineEvents_no_reencode he

theorem lineEvents_no_kill (raw : String) : hasKill (lineEvents raw) = false := by
  rw [hasKill]
  rw [List.any_eq_false]
  intro e he
  rcases lineEvents_shape he with ⟨q, hq⟩ | ⟨s, hs⟩
  · subst hq
    simp [isKillEv]
  · subst hs
    simp [isKillEv]

theorem hasKill_append (xs ys : List Event) :
    hasKill (xs ++ ys) = (hasKill xs || hasKill ys) := by
  simp [hasKill, List.any_append]

theorem concatMap_no_kill (ls : List String) :
    hasKill (concatMap lineEvents ls) = false := by
  induction ls with
  | nil => rfl
  | cons l tl ih =>
    rw [concatMap, hasKill_append, ih, lineEvents_no_kill]
    rfl

/-- Every probe event of the Premiere step carries the derived output path. -/
theorem premierePhase_probe_path {env : Env} {inp : JobInput} {t p : String}
    (h : Event.probe p ∈ (premierePhase env inp t).1) :
    p = mp4PathFor inp.outputDir t := by
  unfold premierePhase at h
  split at h
  · split at h
    · split at h
      · simp at h
        exact h
      · simp at h
        exact h
    · simp at h
  · simp at h

/-- Probe events of the worker come only from the Premiere step. -/
theorem probe_mem_thread {env : Env} {inp : JobInput} {url p : String}
    {ca : Option CancelPoint}
    (h : Event.probe p ∈ (downloadThread env inp url ca).1) :
    Event.probe p ∈ (premierePhase env inp (titleOf env)).1 := by
  cases hinfo : env.infoResult with
  | error e =>
    cases ca with
    | none => simp [downloadThread, hinfo] at h
    | some cp =>
      cases cp <;> simp [downloadThread, hinfo, cancelEvents] at h
  | ok td =>
    obtain ⟨t, d⟩ := td
    cases ca with
    | none =>
      simp only [downloadThread, hinfo] at h
      split at h
      · simp at h
        exact absurd h concatMap_no_probe
      · simp [titleOf, hinfo]
        simp at h
        rcases h with h | h
        · exact absurd h concatMap_no_probe
        · exact h
    | some cp =>
      cases cp with
      | duringFetch => simp [downloadThread, hinfo, cancelEvents] at h
      | beforeSpawn =>
        simp [downloadThread, hinfo, cancelEvents] at h
        exact absurd h concatMap_no_probe
      | duringTransfer buffered =>
        simp [downloadThread, hinfo, cancelEvents] at h
        rcases h with h | h
        · exact absurd h concatMap_no_probe
        · exact absurd h concatMap_no_probe

/-- Re-encode events of the worker come only from the Premiere step. -/
theorem reencode_mem_thread {env : Env} {inp : JobInput} {url p : String}
    {ca : Option CancelPoint}
    (h : Event.reencode p ∈ (downloadThread env inp url ca).1) :
    Event.reencode p ∈ (premierePhase env inp (titleOf env)).1 := by
  cases hinfo : env.infoResult with
  | error e =>
    cases ca with
    | none => simp [downloadThread, hinfo] at h
    | some cp =>
      cases cp <;> simp [downloadThread, hinfo, cancelEvents] at h
  | ok td =>
    obtain ⟨t, d⟩ := td
    cases ca with
    | none =>
      simp only [downloadThread, hinfo] at h
      split at h
      · simp at h
        exact absurd h concatMap_no_reencode
      · simp [titleOf, hinfo]
        simp at h
        rcases h with h | h
        · exact absurd h concatMap_no_reencode
        · exact h
    | some cp =>
      cases cp with
      | duringFetch => simp [downloadThread, hinfo, cancelEvents] at h
      | beforeSpawn =>
        simp [downloadThread, hinfo, cancelEvents] at h
        exact absurd h concatMap_no_reencode
      | duringTransfer buffered =>
        simp [downloadThread, hinfo, cancelEvents] at h
        rcases h with h | h
        · exact absurd h concatMap_no_reencode
        · exact absurd h concatMap_no_reencode

/-- Trace and filesystem of a successful, uncancelled run. -/
theorem downloadThread_success (env : Env) (inp : JobInput) (url t d : String)
    (hinfo : env.infoResult = Except.ok (t, d)) (hrc : env.returncode = 0) :
    (downloadThread env inp url none).1 =
      ([Event.setTitle (t ++ "  (" ++ d ++ ")"), Event.setStatus ("Downloading..."),
        Event.spawn (buildCmd inp.outputDir (formatSelector inp.audioOnly inp.quality)
          inp.audioOnly url)]
       ++ concatMap lineEvents env.lines ++ (premierePhase env inp t).1)
      ++ [Event.setProgress 1, Event.setStatus ("Done! Saved to " ++ inp.outputDir)]
  ∧ (downloadThread env inp url none).2 = (premierePhase env inp t).2 := by
  constructor <;> simp [downloadThread, hinfo, hrc]

/-! ## The claims -/

/-- Claim C1: `_start_download` rejects synchronously — scheduling no worker
and leaving the orchestration state (`_downloading`, `_cancelled`,
`_dl_proc`, progress) untouched — exactly when a job is already active or
the submitted URL is empty after stripping; otherwise it schedules the
worker, marks the job active and shows the FetchingInfo status, returning
at once (the model is a total function). -/
theorem C1_submit (st : AppState) (urlRaw : String) :
    ((st.downloading = true ∨ strTrim urlRaw = "") →
       (startDownload st urlRaw).scheduled = false
     ∧ (startDownload st urlRaw).st.downloading = st.downloading
     ∧ (startDownload st urlRaw).st.progress = st.progress
     ∧ (startDownload st urlRaw).st.dlProc = st.dlProc
     ∧ (startDownload st urlRaw).st.cancelled = st.cancelled)
  ∧ (st.downloading = false → strTrim urlRaw ≠ "" →
       (startDownload st urlRaw).scheduled = true
     ∧ (startDownload st urlRaw).st.downloading = true
     ∧ (startDownload st urlRaw).st.status = "Fetching video info..."
     ∧ (startDownload st urlRaw).st.progress = 0) := by
  constructor
  · rintro (hd | hu)
    · by_cases hu : strTrim urlRaw = "" <;> simp [startDownload, hu, hd]
    · simp [startDownload, hu]
  · intro hd hu
    simp [startDownload, hu, hd]

theorem C1_submit_witness :
    ((startDownload stActive ("u")).scheduled = false
   ∧ (startDownload stActive ("u")).st.downloading = stActive.downloading
   ∧ (startDownload stActive ("u")).st.progress = stActive.progress
   ∧ (startDownload stActive ("u")).st.dlProc = stActive.dlProc
   ∧ (startDownload stActive ("u")).st.cancelled = stActive.cancelled)
  ∧ ((startDownload initialState ("u")).scheduled = true
   ∧ (startDownload initialState ("u")).st.downloading = true
   ∧ (startDownload initialState ("u")).st.status = "Fetching video info..."
   ∧ (startDownload initialState ("u")).st.progress = 0) :=
  ⟨(C1_submit stActive ("u")).1 (Or.inl rfl),
   (C1_submit initialState ("u")).2 rfl (by decide)⟩

/-- Claim C2, as stated, is false: the quick-action path never consults the
App's `_downloading` flag, so a quick submission made while a shell job is
active still schedules a worker. -/
theorem C2_counterexample :
    stActive.downloading = true
  ∧ quickSchedules true ("https://www.youtube.com/watch?v=a") = true
  ∧ ¬ (∀ st : AppState, st.downloading = true →
        ∀ inp : String, quickSchedules true inp = false) := by
  refine ⟨rfl, rfl, ?_⟩
  intro h
  have hx := h stActive rfl ("https://www.youtube.com/watch?v=a")
  exact Bool.noConfusion hx

/-- Claim C2 amended: only the shell entry point enforces the
single-active-job invariant.  A shell submission while `_downloading` is set
is rejected, but the quick-action scheduling decision is a function of the
dialog outcome and entered text alone — it neither reads nor writes the
active-job flag, so quick-action and shell jobs can run concurrently. -/
theorem C2_single_active (st : AppState) (u : String) (inp : String) :
    (st.downloading = true → (startDownload st u).scheduled = false)
  ∧ quickSchedules true inp = (strTrim inp != "") := by
  constructor
  · intro hd
    by_cases hu : strTrim u = "" <;> simp [startDownload, hu, hd]
  · simp [quickSchedules]

theorem C2_single_active_witness :
    (startDownload stActive ("u")).scheduled = false
  ∧ quickSchedules true ("x") = (strTrim ("x") != "") :=
  ⟨(C2_single_active stActive ("u") ("x")).1 rfl, (C2_single_active stActive ("u") ("x")).2⟩

/-- Claim C5: the format selector is a pure function of `(audioOnly,
quality)`: audio-only always yields the fixed `bestaudio/best` (with the
fixed mp3/320K extraction flags appended to the command), and each of the
six quality names yields exactly its `QUALITY_MAP` entry. -/
theorem C5_format :
    (∀ q₁ q₂ : String, formatSelector true q₁ = formatSelector true q₂)
  ∧ (∀ q : String, formatSelector true q = "bestaudio/best")
  ∧ formatSelector false ("Best") = "bestvideo+bestaudio/best"
  ∧ formatSelector false ("4K") = "bestvideo[height<=2160]+bestaudio/best[height<=2160]"
  ∧ formatSelector false ("1440p") = "bestvideo[height<=1440]+bestaudio/best[height<=1440]"
  ∧ formatSelector false ("1080p") = "bestvideo[height<=1080]+bestaudio/best[height<=1080]"
  ∧ formatSelector false ("720p") = "bestvideo[height<=720]+bestaudio/best[height<=720]"
  ∧ formatSelector false ("480p") = "bestvideo[height<=480]+bestaudio/best[height<=480]"
  ∧ (∀ dir f url : String, List.IsInfix audioFlags (buildCmd dir f true url)) := by
  refine ⟨fun q₁ q₂ => rfl, fun q => rfl, rfl, rfl, rfl, rfl, rfl, rfl, ?_⟩
  intro dir f url
  exact ⟨[YTDLP_BIN, "-f", f, "-o", pathJoin dir ("%(title)s.%(ext)s"),
          "--newline", "--no-playlist", "--ffmpeg-location", FFMPEG_DIR],
         [url], by simp [buildCmd]⟩

/-- Claim C6: `_reencode_to_h264` stages into `<filepath>.tmp.mp4`; on
ffmpeg success the temp atomically replaces the original, on failure the
temp is removed and the original is untouched; and either way a successful
transfer still finishes Completed (progress 1, Done status) — re-encode
failure never fails the job. -/
theorem C6_reencode (ok wroteTemp : Bool) (out junk : String) (fs : FS) (fp : String)
    (env : Env) (inp : JobInput) (url t d : String) (st : AppState) :
    (ok = true →
       (reencodeToH264 ok wroteTemp out junk fs fp).get fp = some out
     ∧ (reencodeToH264 ok wroteTemp out junk fs fp).get (fp ++ ".tmp.mp4") = none)
  ∧ (ok = false →
       (reencodeToH264 ok wroteTemp out junk fs fp).get fp = fs.get fp
     ∧ (reencodeToH264 ok wroteTemp out junk fs fp).get (fp ++ ".tmp.mp4") = none)
  ∧ (env.infoResult = Except.ok (t, d) → env.returncode = 0 →
       (finallyUpd (applyEvents st (downloadThread env inp url none).1)).progress = 1
     ∧ (finallyUpd (applyEvents st (downloadThread env inp url none).1)).status
         = "Done! Saved to " ++ inp.outputDir) := by
  have htmp : fp ++ ".tmp.mp4" ≠ fp := tmpPath_ne fp
  refine ⟨?_, ?_, ?_⟩
  · intro hok
    subst hok
    have hts : (fs.write (fp ++ ".tmp.mp4") out).get (fp ++ ".tmp.mp4") = some out :=
      FS.get_write_self _ _ _
    constructor
    · simp only [reencodeToH264, if_true]
      simp [FS.replacePath, hts, FS.get_write_self]
    · simp only [reencodeToH264, if_true]
      simp only [FS.replacePath, hts]
      rw [FS.get_write_ne _ _ _ _ htmp, FS.get_removeFile_self]
  · intro hok
    subst hok
    have hfp : fp ≠ fp ++ ".tmp.mp4" := fun h => htmp h.symm
    cases wroteTemp with
    | true =>
      have hts : (fs.write (fp ++ ".tmp.mp4") junk).get (fp ++ ".tmp.mp4") = some junk :=
        FS.get_write_self _ _ _
      constructor
      · simp only [reencodeToH264, Bool.false_eq_true, if_false, if_true]
        rw [show ((fs.write (fp ++ ".tmp.mp4") junk).hasFile (fp ++ ".tmp.mp4")) = true by
          simp [FS.hasFile, hts]]
        simp only [if_true]
        rw [FS.get_removeFile_ne _ _ _ hfp, FS.get_write_ne _ _ _ _ hfp]
      · simp only [reencodeToH264, Bool.false_eq_true, if_false, if_true]
        rw [show ((fs.write (fp ++ ".tmp.mp4") junk).hasFile (fp ++ ".tmp.mp4")) = true by
          simp [FS.hasFile, hts]]
        simp only [if_true]
        exact FS.get_removeFile_self _ _
    | false =>
      by_cases hhas : fs.hasFile (fp ++ ".tmp.mp4") = true
      · constructor
        · simp only [reencodeToH264, Bool.false_eq_true, if_false, hhas, if_true]
          exact FS.get_removeFile_ne _ _ _ hfp
        · simp only [reencodeToH264, Bool.false_eq_true, if_false, hhas, if_true]
          exact FS.get_removeFile_self _ _
      · constructor
        · simp [reencodeToH264, hhas]
        · have : fs.get (fp ++ ".tmp.mp4") = none := by
            rcases hg : fs.get (fp ++ ".tmp.mp4") with _ | c
            · rfl
            · exact absurd (by simp [FS.hasFile, hg]) hhas
          simp [reencodeToH264, hhas, this]
  · intro hinfo hrc
    rw [(downloadThread_success env inp url t d hinfo hrc).1]
    exact ⟨(applyEvents_tail_progress_status st _ _ _).2,
           (applyEvents_tail_progress_status st _ _ _).1⟩

theorem C6_reencode_witness :
    ((reencodeToH264 true false ("newv") ("j") ⟨[("/d/T.mp4", "v")]⟩ ("/d/T.mp4")).get
        ("/d/T.mp4") = some ("newv")
   ∧ (reencodeToH264 true false ("newv") ("j") ⟨[("/d/T.mp4", "v")]⟩ ("/d/T.mp4")).get
        ("/d/T.mp4.tmp.mp4") = none)
  ∧ ((reencodeToH264 false true ("newv") ("j") ⟨[("/d/T.mp4", "v")]⟩ ("/d/T.mp4")).get
        ("/d/T.mp4") = FS.get ⟨[("/d/T.mp4", "v")]⟩ ("/d/T.mp4")
   ∧ (reencodeToH264 false true ("newv") ("j") ⟨[("/d/T.mp4", "v")]⟩ ("/d/T.mp4")).get
        ("/d/T.mp4.tmp.mp4") = none)
  ∧ ((finallyUpd (applyEvents initialState (downloadThread envC3 inpVid ("u") none).1)).progress = 1
   ∧ (finallyUpd (applyEvents initialState (downloadThread envC3 inpVid ("u") none).1)).status
       = "Done! Saved to " ++ inpVid.outputDir) :=
  ⟨(C6_reencode true false ("newv") ("j") ⟨[("/d/T.mp4", "v")]⟩ ("/d/T.mp4")
      envC3 inpVid ("u") ("T") ("1:00") initialState).1 rfl,
   (C6_reencode false true ("newv") ("j") ⟨[("/d/T.mp4", "v")]⟩ ("/d/T.mp4")
      envC3 inpVid ("u") ("T") ("1:00") initialState).2.1 rfl,
   (C6_reencode true false ("newv") ("j") ⟨[("/d/T.mp4", "v")]⟩ ("/d/T.mp4")
      envC3 inpVid ("u") ("T") ("1:00") initialState).2.2 rfl rfl⟩

/-- Claim C7: the transcode step runs only when `audioOnly` is false and
`premiereCompatible` is true (otherwise the worker performs no probe and no
re-encode and leaves the filesystem alone), and it is idempotent: when the
probed codec is already h264 the re-encode is never invoked. -/
theorem C7_transcode_gate (env : Env) (inp : JobInput) (url t : String)
    (ca : Option CancelPoint) :
    ((inp.audioOnly = true ∨ inp.premiere = false) →
       (premierePhase env inp t).1 = [] ∧ (premierePhase env inp t).2 = env.fs
     ∧ (∀ p, Event.probe p ∉ (downloadThread env inp url ca).1)
     ∧ (∀ p, Event.reencode p ∉ (downloadThread env inp url ca).1))
  ∧ (env.probeCodec = "h264" →
       ∀ p, Event.reencode p ∉ (downloadThread env inp url ca).1) := by
  have hgate : ∀ t' : String, (inp.audioOnly = true ∨ inp.premiere = false) →
      (premierePhase env inp t').1 = [] ∧ (premierePhase env inp t').2 = env.fs := by
    intro t' h
    rcases h with h | h <;> simp [premierePhase, h]
  constructor
  · intro h
    refine ⟨(hgate t h).1, (hgate t h).2, ?_, ?_⟩
    · intro p hp
      have hm := probe_mem_thread hp
      rw [(hgate (titleOf env) h).1] at hm
      simp at hm
    · intro p hp
      have hm := reencode_mem_thread hp
      rw [(hgate (titleOf env) h).1] at hm
      simp at hm
  · intro hc p hp
    have hm := reencode_mem_thread hp
    have hnone : Event.reencode p ∉ (premierePhase env inp (titleOf env)).1 := by
      unfold premierePhase
      split
      · split
        · split
          · rename_i hcodec
            rw [hc] at hcodec
            simp at hcodec
          · simp
        · simp
      · simp
    exact hnone hm

theorem C7_transcode_gate_witness :
    ((premierePhase envC3 inpAudio ("T")).1 = []
   ∧ (∀ p, Event.probe p ∉ (downloadThread envC3 inpAudio ("u") none).1))
  ∧ (∀ p, Event.reencode p ∉ (downloadThread envH264 inpVid ("u") none).1) :=
  ⟨⟨((C7_transcode_gate envC3 inpAudio ("u") ("T") none).1 (Or.inl rfl)).1,
    ((C7_transcode_gate envC3 inpAudio ("u") ("T") none).1 (Or.inl rfl)).2.2.1⟩,
   (C7_transcode_gate envH264 inpVid ("u") ("T") none).2 rfl⟩

/-- Claim C4, as stated, is false: a cancel click landing after the line-314
flag check but before the `Popen` at line 338 finds `_dl_proc = None`, so no
kill is sent, and the cancellation flag — never checked by the loop — is
first honoured at line 357, after the transfer.  The worker spawns yt-dlp
and transfers in full: this run contains the spawn, no kill event, bytes are
written, and it ends with the last output line's state (`Merging
streams...`, progress 0.95), not `Cancelled.` with progress 0. -/
theorem C4_counterexample :
    Event.spawn (buildCmd inpVid.outputDir
        (formatSelector inpVid.audioOnly inpVid.quality) inpVid.audioOnly ("u"))
      ∈ (downloadThread envC3 inpVid ("u") (some CancelPoint.beforeSpawn)).1
  ∧ hasKill (downloadThread envC3 inpVid ("u") (some CancelPoint.beforeSpawn)).1 = false
  ∧ (finallyUpd (applyEvents initialState
        (downloadThread envC3 inpVid ("u") (some CancelPoint.beforeSpawn)).1)).status
      = "Merging streams..."
  ∧ (finallyUpd (applyEvents initialState
        (downloadThread envC3 inpVid ("u") (some CancelPoint.beforeSpawn)).1)).progress
      = mkRat 19 20
  ∧ ("Merging streams..." : String) ≠ "Cancelled."
  ∧ mkRat 19 20 ≠ 0 :=
  ⟨by decide, rfl, rfl, rfl, by decide, by decide⟩

/-- Claim C4 amended: `_cancel_download` with a live subprocess signals the
entire process group — every process whose group is the child's, helper
children included, is a kill target — and with no live process it only sets
the flag and resets the UI, sending no kill.  The worker honours the flag
only at its two checks, so a cancel observed during the metadata fetch stops
the worker with no spawn, no kill and the filesystem untouched, ending with
status `Cancelled.` and progress 0, and a mid-transfer cancel after which no
further buffered output arrives likewise ends `Cancelled.` at progress 0;
but a cancel landing after the post-metadata check and before the spawn is
not observed until after the transfer: the spawn still happens and no kill
is ever sent. -/
theorem C4_cancel (env : Env) (inp : JobInput) (url : String) (st : AppState)
    (t2 d2 : String) (hinfo : env.infoResult = Except.ok (t2, d2)) :
    ((∀ c, Event.spawn c ∉ (downloadThread env inp url (some CancelPoint.duringFetch)).1)
   ∧ hasKill (downloadThread env inp url (some CancelPoint.duringFetch)).1 = false
   ∧ (downloadThread env inp url (some CancelPoint.duringFetch)).2 = env.fs
   ∧ (finallyUpd (applyEvents st
        (downloadThread env inp url (some CancelPoint.duringFetch)).1)).status = "Cancelled."
   ∧ (finallyUpd (applyEvents st
        (downloadThread env inp url (some CancelPoint.duringFetch)).1)).progress = 0)
  ∧ (Event.killGroup env.pid
       ∈ (downloadThread env inp url (some (CancelPoint.duringTransfer []))).1
   ∧ (∀ pr ∈ env.procTable, pr.2 = env.pid →
        pr.1 ∈ killGroupTargets env.procTable env.pid)
   ∧ (finallyUpd (applyEvents st
        (downloadThread env inp url (some (CancelPoint.duringTransfer []))).1)).status
       = "Cancelled."
   ∧ (finallyUpd (applyEvents st
        (downloadThread env inp url (some (CancelPoint.duringTransfer []))).1)).progress = 0)
  ∧ (Event.spawn (buildCmd inp.outputDir (formatSelector inp.audioOnly inp.quality)
        inp.audioOnly url)
       ∈ (downloadThread env inp url (some CancelPoint.beforeSpawn)).1
   ∧ hasKill (downloadThread env inp url (some CancelPoint.beforeSpawn)).1 = false)
  ∧ ((cancelFlags st).cancelled = true
   ∧ cancelEvents none = [Event.setStatus ("Cancelled."), Event.setProgress 0]) := by
  have hkill : ∀ pr ∈ env.procTable, pr.2 = env.pid →
      pr.1 ∈ killGroupTargets env.procTable env.pid := by
    intro pr hpr hpg
    unfold killGroupTargets
    exact List.mem_map_of_mem _ (List.mem_filter.mpr ⟨hpr, by simp [hpg]⟩)
  have h2 : (downloadThread env inp url (some (CancelPoint.duringTransfer []))).1
      = ([Event.setTitle (t2 ++ "  (" ++ d2 ++ ")"), Event.setStatus ("Downloading..."),
          Event.spawn (buildCmd inp.outputDir
            (formatSelector inp.audioOnly inp.quality) inp.audioOnly url)]
         ++ concatMap lineEvents env.lines ++ [Event.killGroup env.pid])
        ++ [Event.setStatus ("Cancelled."), Event.setProgress 0] := by
    simp [downloadThread, hinfo, cancelEvents, concatMap]
  have h3 : (downloadThread env inp url (some CancelPoint.beforeSpawn)).1
      = [Event.setTitle (t2 ++ "  (" ++ d2 ++ ")"),
         Event.setStatus ("Cancelled."), Event.setProgress 0,
         Event.setStatus ("Downloading..."),
         Event.spawn (buildCmd inp.outputDir
           (formatSelector inp.audioOnly inp.quality) inp.audioOnly url)]
        ++ concatMap lineEvents env.lines := by
    simp [downloadThread, hinfo, cancelEvents]
  refine ⟨⟨?_, ?_, ?_, ?_, ?_⟩, ⟨?_, hkill, ?_, ?_⟩, ⟨?_, ?_⟩, rfl, rfl⟩
  · intro c
    simp [downloadThread, hinfo, cancelEvents]
  · simp [downloadThread, hinfo, cancelEvents, hasKill, isKillEv]
  · simp [downloadThread, hinfo]
  · simp [downloadThread, hinfo, cancelEvents, applyEvents, applyEvent, finallyUpd]
  · simp [downloadThread, hinfo, cancelEvents, applyEvents, applyEvent, finallyUpd]
  · rw [h2]
    simp
  · rw [h2]
    exact (applyEvents_tail_status_progress st _ _ _).1
  · rw [h2]
    exact (applyEvents_tail_status_progress st _ _ _).2
  · rw [h3]
    simp
  · rw [h3, hasKill_append, concatMap_no_kill]
    rfl

theorem C4_cancel_witness :
    (∀ c, Event.spawn c ∉ (downloadThread envC3 inpVid ("u")
        (some CancelPoint.duringFetch)).1)
  ∧ (finallyUpd (applyEvents initialState (downloadThread envC3 inpVid ("u")
        (some CancelPoint.duringFetch)).1)).status = "Cancelled."
  ∧ Event.killGroup envC3.pid ∈ (downloadThread envC3 inpVid ("u")
        (some (CancelPoint.duringTransfer []))).1
  ∧ (8 : Nat) ∈ killGroupTargets envC3.procTable envC3.pid
  ∧ Event.spawn (buildCmd inpVid.outputDir
        (formatSelector inpVid.audioOnly inpVid.quality) inpVid.audioOnly ("u"))
      ∈ (downloadThread envC3 inpVid ("u") (some CancelPoint.beforeSpawn)).1 :=
  ⟨(C4_cancel envC3 inpVid ("u") initialState ("T") ("1:00") rfl).1.1,
   (C4_cancel envC3 inpVid ("u") initialState ("T") ("1:00") rfl).1.2.2.2.1,
   (C4_cancel envC3 inpVid ("u") initialState ("T") ("1:00") rfl).2.1.1,
   (C4_cancel envC3 inpVid ("u") initialState ("T") ("1:00") rfl).2.1.2.1
     (8, 7) (by decide) rfl,
   (C4_cancel envC3 inpVid ("u") initialState ("T") ("1:00") rfl).2.2.1.1⟩


/-- Claim C8, as stated, is false for the GUI worker path: a metadata-fetch
error is surfaced as `"Error: " ++ <raw text>` with no truncation or
sanitization — here a 100-character message yields a 107-character status
that contains the raw exception text in full. -/
theorem C8_counterexample :
    (finallyUpd (applyEvents initialState (downloadThread envErr inpPlain ("u") none).1)).status
      = "Error: " ++ longMsg
  ∧ ("Error: " ++ longMsg).length = 107
  ∧ ¬ (("Error: " ++ longMsg).length ≤ 80)
  ∧ strContains ("Error: " ++ longMsg) longMsg = true := by
  refine ⟨rfl, rfl, by decide, rfl⟩

/-- Claim C8 amended: only the quick-action path sanitizes — its error text
is capped at 80 characters with single quotes stripped — while the GUI
worker surfaces the full raw exception text prefixed `Error: ` (and resets
progress to 0) with no length bound. -/
theorem C8_sanitizer (e : String) (env : Env) (inp : JobInput) (url msg : String)
    (hinfo : env.infoResult = Except.error msg) :
    (quickErrorText e).length ≤ 80
  ∧ (∀ c ∈ (quickErrorText e).toList, c ≠ quoteChar)
  ∧ quickNotifications (Except.error e) = ["Starting download...", quickErrorText e]
  ∧ (downloadThread env inp url none).1
      = [Event.setStatus ("Error: " ++ msg), Event.setProgress 0] := by
  refine ⟨?_, ?_, rfl, ?_⟩
  · calc (quickErrorText e).length
        ≤ (e.toList.take 80).length := List.length_filter_le _ _
      _ ≤ 80 := by simp
  · intro c hc
    simp only [quickErrorText] at hc
    have hm := List.mem_filter.mp hc
    exact bne_iff_ne.mp hm.2
  · simp [downloadThread, hinfo]

theorem C8_sanitizer_witness :
    (quickErrorText longMsg).length ≤ 80
  ∧ (downloadThread envErr inpPlain ("u") none).1
      = [Event.setStatus ("Error: " ++ longMsg), Event.setProgress 0] :=
  ⟨(C8_sanitizer longMsg envErr inpPlain ("u") longMsg rfl).1,
   (C8_sanitizer longMsg envErr inpPlain ("u") longMsg rfl).2.2.2⟩

/-- Claim C9: a stdout line carrying the merge signal (and no percentage or
ETA token) produces exactly the fixed `Merging streams...` status with
progress 0.95, and a triggered re-encode produces exactly the probe, the
`Re-encoding...` status, the fixed progress 0.5 and the re-encode call —
fixed placeholders, never measured sub-progress. -/
theorem C9_placeholders (raw : String) (env : Env) (inp : JobInput) (t : String)
    (hE : strContains (strTrim raw) ("ETA") = false)
    (hP : strContains (strTrim raw) ("%") = false)
    (hM : (strContains (strTrim raw) ("Merging")
            || strContains (lowerStr (strTrim raw)) ("merger")) = true)
    (haud : inp.audioOnly = false) (hprem : inp.premiere = true)
    (hfile : env.fs.hasFile (mp4PathFor inp.outputDir t) = true)
    (hc1 : env.probeCodec ≠ "") (hc2 : env.probeCodec ≠ "h264") :
    lineEvents raw
      = [Event.setStatus ("Merging streams..."), Event.setProgress (mkRat 19 20)]
  ∧ (premierePhase env inp t).1
      = [Event.probe (mp4PathFor inp.outputDir t),
         Event.setStatus ("Re-encoding to H.264 (was " ++ env.probeCodec ++ ")..."),
         Event.setProgress (mkRat 1 2),
         Event.reencode (mp4PathFor inp.outputDir t)] := by
  constructor
  · have hpc : pctChar ∉ (strTrim raw).toList := by
      intro hm
      rw [show strContains (strTrim raw) ("%")
            = isInfixOfB [pctChar] (strTrim raw).toList from rfl] at hP
      rw [(singleton_isInfixOfB pctChar _).mpr hm] at hP
      exact Bool.noConfusion hP
    have hfd : findPct (strTrim raw).data = none := findPct_eq_none hpc
    simp [lineEvents, findPct_eq_none hpc, hfd, hE, hP, hM]
  · simp [premierePhase, haud, hprem, hfile, hc1, hc2]

theorem C9_placeholders_witness :
    lineEvents ("Merging")
      = [Event.setStatus ("Merging streams..."), Event.setProgress (mkRat 19 20)]
  ∧ (premierePhase envC3 inpVid ("T")).1
      = [Event.probe (mp4PathFor ("/d") ("T")),
         Event.setStatus ("Re-encoding to H.264 (was " ++ envC3.probeCodec ++ ")..."),
         Event.setProgress (mkRat 1 2),
         Event.reencode (mp4PathFor ("/d") ("T"))] :=
  C9_placeholders ("Merging") envC3 inpVid ("T") rfl rfl rfl rfl rfl rfl
    (by decide) (by decide)

/-- Claim C10: after a successful transfer with Premiere on and audio off,
the worker looks for the produced file only at
`<outputDir>/<title with every slash replaced by underscore>.mp4`; when no
file exists there, the probe and the re-encode are silently skipped, the
filesystem is untouched, and the job still completes with progress 1 and
the Done status. -/
theorem C10_output_path (env : Env) (inp : JobInput) (url t d : String) (st : AppState)
    (hinfo : env.infoResult = Except.ok (t, d)) (hrc : env.returncode = 0)
    (haud : inp.audioOnly = false) (hprem : inp.premiere = true) :
    (∀ p, Event.probe p ∈ (downloadThread env inp url none).1 →
       p = mp4PathFor inp.outputDir t)
  ∧ (env.fs.hasFile (mp4PathFor inp.outputDir t) = false →
       (∀ p, Event.probe p ∉ (downloadThread env inp url none).1)
     ∧ (∀ p, Event.reencode p ∉ (downloadThread env inp url none).1)
     ∧ (downloadThread env inp url none).2 = env.fs
     ∧ (finallyUpd (applyEvents st (downloadThread env inp url none).1)).progress = 1
     ∧ (finallyUpd (applyEvents st (downloadThread env inp url none).1)).status
         = "Done! Saved to " ++ inp.outputDir) := by
  have htitle : titleOf env = t := by simp [titleOf, hinfo]
  constructor
  · intro p hp
    have h1 := probe_mem_thread hp
    rw [htitle] at h1
    exact premierePhase_probe_path h1
  · intro hnofile
    have hpp : (premierePhase env inp t).1 = [] ∧ (premierePhase env inp t).2 = env.fs := by
      simp [premierePhase, haud, hprem, hnofile]
    refine ⟨?_, ?_, ?_, ?_, ?_⟩
    · intro p hp
      have h1 := probe_mem_thread hp
      rw [htitle, hpp.1] at h1
      simp at h1
    · intro p hp
      have h1 := reencode_mem_thread hp
      rw [htitle, hpp.1] at h1
      simp at h1
    · rw [(downloadThread_success env inp url t d hinfo hrc).2, hpp.2]
    · rw [(downloadThread_success env inp url t d hinfo hrc).1]
      exact (applyEvents_tail_progress_status st _ _ _).2
    · rw [(downloadThread_success env inp url t d hinfo hrc).1]
      exact (applyEvents_tail_progress_status st _ _ _).1

theorem C10_output_path_witness :
    (∀ p, Event.probe p ∈ (downloadThread envNoFile inpVid ("u") none).1 →
       p = mp4PathFor inpVid.outputDir ("T"))
  ∧ (∀ p, Event.reencode p ∉ (downloadThread envNoFile inpVid ("u") none).1)
  ∧ (finallyUpd (applyEvents initialState
        (downloadThread envNoFile inpVid ("u") none).1)).progress = 1 :=
  ⟨(C10_output_path envNoFile inpVid ("u") ("T") ("1:00") initialState
      rfl rfl rfl rfl).1,
   ((C10_output_path envNoFile inpVid ("u") ("T") ("1:00") initialState
      rfl rfl rfl rfl).2 rfl).2.1,
   ((C10_output_path envNoFile inpVid ("u") ("T") ("1:00") initialState
      rfl rfl rfl rfl).2 rfl).2.2.2.1⟩

/-- Claim C3, as stated, is false: in a successful, uncancelled, unreset run
the reported progress sequence is `0, 0.5, 0.3, 0.95, 0.5, 1` — parsed
percentages are applied verbatim (0.3 after 0.5) and the Transcoding
placeholder 0.5 is reported after Merging's 0.95. -/
theorem C3_counterexample :
    progressEvents (runFromSubmit envC3 inpVid initialState none).trace
      = [0, mkRat 50 100, mkRat 30 100, mkRat 19 20, mkRat 1 2, 1]
  ∧ nondecreasing (progressEvents (runFromSubmit envC3 inpVid initialState none).trace)
      = false := ⟨rfl, rfl⟩

/-- Claim C3 amended: the loop applies each parsed percentage verbatim, with
no monotonicity clamping, and a re-encode reports the fixed 0.5 after
Merging's fixed 0.95; therefore the full reported sequence (0 at submit up
to 1 at completion) is non-decreasing only under the further conditions that
the per-line progress values (parsed percentages interleaved with the 0.95
merge placeholder) are themselves non-decreasing and bounded by 1 and that
no re-encode step emits progress. -/
theorem C3_monotone (env : Env) (inp : JobInput) (t d : String)
    (hurl : strTrim inp.urlRaw ≠ "")
    (hinfo : env.infoResult = Except.ok (t, d)) (hrc : env.returncode = 0)
    (hmono : nondecreasing (progressEvents (concatMap lineEvents env.lines)) = true)
    (hub : ∀ q ∈ progressEvents (concatMap lineEvents env.lines), q ≤ 1)
    (hnore : progressEvents (premierePhase env inp t).1 = []) :
    nondecreasing (progressEvents (runFromSubmit env inp initialState none).trace)
      = true := by
  have hsub : (startDownload initialState inp.urlRaw).scheduled = true := by
    simp [startDownload, hurl, initialState]
  have htr : (runFromSubmit env inp initialState none).trace
      = submitEvents ++ (downloadThread env inp (strTrim inp.urlRaw) none).1 := by
    simp [runFromSubmit, hsub]
  rw [htr, (downloadThread_success env inp (strTrim inp.urlRaw) t d hinfo hrc).1]
  simp only [progressEvents_append, hnore, List.append_nil]
  rw [show progressEvents submitEvents = [0] from rfl]
  rw [show progressEvents [Event.setTitle (t ++ "  (" ++ d ++ ")"),
        Event.setStatus ("Downloading..."),
        Event.spawn (buildCmd inp.outputDir (formatSelector inp.audioOnly inp.quality)
          inp.audioOnly (strTrim inp.urlRaw))] = [] from rfl]
  rw [show progressEvents [Event.setProgress 1,
        Event.setStatus ("Done! Saved to " ++ inp.outputDir)] = [1] from rfl]
  simp only [List.nil_append, List.singleton_append]
  apply nondecr_cons
  · exact nondecr_append_last 1 _ hmono hub
  · intro q hq
    rcases List.mem_append.mp hq with h | h
    · exact concatMap_progress_nonneg h
    · simp at h
      rw [h]
      exact zero_le_one

theorem C3_monotone_witness :
    nondecreasing (progressEvents (runFromSubmit envMono inpPlain initialState none).trace)
      = true :=
  C3_monotone envMono inpPlain ("Clip") ("0:10") (by decide) rfl rfl (by rfl)
    (by decide) rfl
